import Mathlib

/-!
Verification of the Guess Who question-selection and candidate-filtering
engine (`person_model.py`, `game_engine.py`, `data_loader.py`,
`database_manager.py`).

The embedding is shallow: Python strings become Lean `String`s, the list
comprehensions filtering `remaining_people` become `List.filter`, console
input becomes an explicit list of raw input strings consumed left to right
(each `while True: input()` validation loop becomes a recursive scan that
drops invalid entries), and each question method becomes a function from a
game state and an input stream to an optional (state, rest-of-stream) pair;
`none` models an input stream that runs out before a valid answer appears.
-/

namespace GuessWho

/-! ### String helpers mirroring the Python built-ins used by the code -/

/-- Python `str.upper()` restricted to the ASCII case mapping used here. -/
def strUpper (s : String) : String := String.mk (s.data.map Char.toUpper)

/-- Python `str.lower()` restricted to the ASCII case mapping used here. -/
def strLower (s : String) : String := String.mk (s.data.map Char.toLower)

/-- Python `str.strip()`: drop leading and trailing whitespace. -/
def pyStrip (s : String) : String :=
  String.mk (((s.data.dropWhile Char.isWhitespace).reverse.dropWhile
    Char.isWhitespace).reverse)

/-- The `input(...).strip().upper()` normalization applied to every console
answer before it is tested against the allowed set. -/
def pyInputNorm (s : String) : String := strUpper (pyStrip s)

/-- Contiguous-sublist test on character lists, the meaning of Python's
`needle in haystack` on strings. -/
def containsSeq (n : List Char) : List Char → Bool
  | [] => n.isEmpty
  | c :: rest => n.isPrefixOf (c :: rest) || containsSeq n rest

/-- Python `needle in hay` for strings. -/
def substrIn (needle hay : String) : Bool := containsSeq needle.data hay.data

/-! ### Person (`person_model.py`) -/

/-- The `Person` dataclass: sno, name, gender, age, occupation, industry,
nationality. -/
structure Person where
  sno : Int
  name : String
  gender : String
  age : Int
  occupation : String
  industry : String
  nationality : String
  deriving DecidableEq, Repr

/-- `Person.__post_init__`: upper-case gender and industry when non-empty
(an empty, i.e. falsy, string is replaced by `''`). -/
def postInit (p : Person) : Person :=
  { p with
    gender := if p.gender ≠ "" then strUpper p.gender else ""
    industry := if p.industry ≠ "" then strUpper p.industry else "" }

/-- `Person.from_tuple` composed with `__post_init__`: strip every string
field of the database row (a falsy field becomes `''`), then normalize. -/
def from_tuple (sno : Int) (name gender : String) (age : Int)
    (occupation industry nationality : String) : Person :=
  postInit
    { sno := sno
      name := if name ≠ "" then pyStrip name else ""
      gender := if gender ≠ "" then pyStrip gender else ""
      age := age
      occupation := if occupation ≠ "" then pyStrip occupation else ""
      industry := if industry ≠ "" then pyStrip industry else ""
      nationality := if nationality ≠ "" then pyStrip nationality else "" }

/-- `Person.is_in_entertainment`. -/
def Person.is_in_entertainment (p : Person) : Bool :=
  ["SPORTS", "MUSIC", "FILM"].contains p.industry

/-- `Person.plays_sport`. -/
def Person.plays_sport (p : Person) : Bool := p.industry = "SPORTS"

/-- `Person.is_in_music`. -/
def Person.is_in_music (p : Person) : Bool := p.industry = "MUSIC"

/-- `Person.is_in_film`. -/
def Person.is_in_film (p : Person) : Bool := p.industry = "FILM"

/-- `Person.plays_tennis`: `'tennis' in occupation.lower()`. -/
def Person.plays_tennis (p : Person) : Bool :=
  substrIn "tennis" (strLower p.occupation)

/-- `Person.plays_ball_sport`: any of the fixed keywords occurs in
`occupation.lower()`. -/
def Person.plays_ball_sport (p : Person) : Bool :=
  ["football", "basketball", "tennis", "cricket", "baseball"].any
    (fun sport => substrIn sport (strLower p.occupation))

/-! ### Game state and console input (`game_engine.py`) -/

/-- The mutable fields of `GuessWhoGame` that the question logic touches. -/
structure GameState where
  remaining_people : List Person
  questions_asked : Nat
  max_questions : Nat
  deriving DecidableEq, Repr

/-- `GuessWhoGame.__init__` + `start_new_game`: full catalog, counter 0,
budget 20. -/
def initState (people : List Person) : GameState :=
  { remaining_people := people, questions_asked := 0, max_questions := 20 }

/-- The list comprehension `[p for p in self.remaining_people if pred(p)]`
used by every filtering step. -/
def filterCandidates (ps : List Person) (pred : Person → Bool) : List Person :=
  ps.filter pred

/-- The `while True: answer = input(...).strip().upper(); if answer in
allowed: ... else reprompt` loop: scan the raw input stream for the first
entry whose normalization lies in the allowed set, dropping invalid entries;
`none` if the stream is exhausted first. -/
def getValid (allowed : List String) : List String → Option (String × List String)
  | [] => none
  | x :: rest =>
    if allowed.contains (pyInputNorm x) then some (pyInputNorm x, rest)
    else getValid allowed rest

/-- `GuessWhoGame.ask_gender_question`. -/
def ask_gender_question (s : GameState) (inp : List String) :
    Option (GameState × List String) :=
  match getValid ["M", "F"] inp with
  | none => none
  | some (a, rest) =>
    some ({ s with
      remaining_people := filterCandidates s.remaining_people (fun p => p.gender = a)
      questions_asked := s.questions_asked + 1 }, rest)

/-- The branch tag returned by `ask_entertainment_question`. -/
inductive IndustryBranch where
  | entertainment
  | other
  deriving DecidableEq, Repr

/-- `GuessWhoGame.ask_entertainment_question`. -/
def ask_entertainment_question (s : GameState) (inp : List String) :
    Option (GameState × IndustryBranch × List String) :=
  match getValid ["Y", "N"] inp with
  | none => none
  | some (a, rest) =>
    if a = "Y" then
      some ({ s with
        remaining_people := filterCandidates s.remaining_people
          (fun p => p.is_in_entertainment)
        questions_asked := s.questions_asked + 1 }, .entertainment, rest)
    else
      some ({ s with
        remaining_people := filterCandidates s.remaining_people
          (fun p => !p.is_in_entertainment)
        questions_asked := s.questions_asked + 1 }, .other, rest)

/-- `GuessWhoGame._ask_tennis_question`. -/
def ask_tennis_question (s : GameState) (inp : List String) :
    Option (GameState × List String) :=
  match getValid ["Y", "N"] inp with
  | none => none
  | some (a, rest) =>
    if a = "Y" then
      some ({ s with
        remaining_people := filterCandidates s.remaining_people (fun p => p.plays_tennis)
        questions_asked := s.questions_asked + 1 }, rest)
    else
      some ({ s with
        remaining_people := filterCandidates s.remaining_people (fun p => !p.plays_tennis)
        questions_asked := s.questions_asked + 1 }, rest)

/-- `GuessWhoGame._ask_ball_sport_question`. -/
def ask_ball_sport_question (s : GameState) (inp : List String) :
    Option (GameState × List String) :=
  match getValid ["Y", "N"] inp with
  | none => none
  | some (a, rest) =>
    if a = "Y" then
      some ({ s with
        remaining_people := filterCandidates s.remaining_people (fun p => p.plays_ball_sport)
        questions_asked := s.questions_asked + 1 }, rest)
    else
      some ({ s with
        remaining_people := filterCandidates s.remaining_people (fun p => !p.plays_ball_sport)
        questions_asked := s.questions_asked + 1 }, rest)

/-- The state produced by answering the plays-sports question itself,
before any sub-question (the two filtering branches of the first `while`
loop of `ask_sports_question`). -/
def afterSportsAnswer (s : GameState) (a : String) : GameState :=
  if a = "Y" then
    { s with
      remaining_people := filterCandidates s.remaining_people (fun p => p.plays_sport)
      questions_asked := s.questions_asked + 1 }
  else
    { s with
      remaining_people := filterCandidates s.remaining_people (fun p => !p.plays_sport)
      questions_asked := s.questions_asked + 1 }

/-- The guarded tennis sub-question statement of `ask_sports_question`:
`if len(remaining) > 3 and any plays_tennis: _ask_tennis_question()`. -/
def sportsTennisStage (s1 : GameState) (rest : List String) :
    Option (GameState × List String) :=
  if s1.remaining_people.length > 3 ∧
      s1.remaining_people.any (fun p => p.plays_tennis) then
    ask_tennis_question s1 rest
  else some (s1, rest)

/-- The guarded ball-sport sub-question statement of `ask_sports_question`:
`if len(remaining) > 3 and any plays_ball_sport: _ask_ball_sport_question()`. -/
def sportsBallStage (s2 : GameState) (rest2 : List String) :
    Option (GameState × List String) :=
  if s2.remaining_people.length > 3 ∧
      s2.remaining_people.any (fun p => p.plays_ball_sport) then
    ask_ball_sport_question s2 rest2
  else some (s2, rest2)

/-- `GuessWhoGame.ask_sports_question`: early return when nobody plays a
sport; otherwise the sports yes/no question, then the tennis sub-question
when more than 3 remain and one plays tennis, then the ball-sport
sub-question when more than 3 remain and one plays a ball sport. -/
def ask_sports_question (s : GameState) (inp : List String) :
    Option (GameState × List String) :=
  if !(s.remaining_people.any (fun p => p.plays_sport)) then some (s, inp)
  else
    match getValid ["Y", "N"] inp with
    | none => none
    | some (a, rest) =>
      match sportsTennisStage (afterSportsAnswer s a) rest with
      | none => none
      | some (s2, rest2) => sportsBallStage s2 rest2

/-- `GuessWhoGame.ask_film_vs_music_question`. -/
def ask_film_vs_music_question (s : GameState) (inp : List String) :
    Option (GameState × List String) :=
  match getValid ["Y", "N"] inp with
  | none => none
  | some (a, rest) =>
    if a = "Y" then
      some ({ s with
        remaining_people := filterCandidates s.remaining_people (fun p => p.is_in_film)
        questions_asked := s.questions_asked + 1 }, rest)
    else
      some ({ s with
        remaining_people := filterCandidates s.remaining_people (fun p => p.is_in_music)
        questions_asked := s.questions_asked + 1 }, rest)

/-! ### Nationality tally (`ask_nationality_question`) -/

/-- One step of building the `nationalities` dict:
`nationalities[nat] = nationalities.get(nat, 0) + 1`, keeping Python's
insertion order of keys. -/
def bump : List (String × Nat) → String → List (String × Nat)
  | [], k => [(k, 1)]
  | (k', v) :: rest, k =>
    if k' = k then (k', v + 1) :: rest else (k', v) :: bump rest k

/-- The `nationalities` dict built by iterating over the remaining people. -/
def tally (l : List String) : List (String × Nat) := l.foldl bump []

/-- Python's `max(keys, key=lambda x: nationalities[x])` over an
insertion-ordered dict: the first entry attaining the maximal count. -/
def pickMax : List (String × Nat) → Option (String × Nat)
  | [] => none
  | e :: rest =>
    match pickMax rest with
    | none => some e
    | some e' => if e'.2 > e.2 then some e' else some e

/-- The most common nationality of a list of people, with its count,
computed fresh from the remaining people exactly as the source does. -/
def most_common (ps : List Person) : Option (String × Nat) :=
  pickMax (tally (ps.map (fun p => p.nationality)))

/-- `GuessWhoGame.ask_nationality_question`: early return at size ≤ 2;
otherwise ask about the most common nationality only when its count
exceeds 1. -/
def ask_nationality_question (s : GameState) (inp : List String) :
    Option (GameState × List String) :=
  if s.remaining_people.length ≤ 2 then some (s, inp)
  else
    match most_common s.remaining_people with
    | none => some (s, inp)
    | some (mc, cnt) =>
      if cnt > 1 then
        match getValid ["Y", "N"] inp with
        | none => none
        | some (a, rest) =>
          if a = "Y" then
            some ({ s with
              remaining_people := filterCandidates s.remaining_people
                (fun p => p.nationality = mc)
              questions_asked := s.questions_asked + 1 }, rest)
          else
            some ({ s with
              remaining_people := filterCandidates s.remaining_people
                (fun p => p.nationality ≠ mc)
              questions_asked := s.questions_asked + 1 }, rest)
      else some (s, inp)

/-- `GuessWhoGame.ask_age_question`: early return at size ≤ 2; otherwise
the over-40 yes/no question. -/
def ask_age_question (s : GameState) (inp : List String) :
    Option (GameState × List String) :=
  if s.remaining_people.length ≤ 2 then some (s, inp)
  else
    match getValid ["Y", "N"] inp with
    | none => none
    | some (a, rest) =>
      if a = "Y" then
        some ({ s with
          remaining_people := filterCandidates s.remaining_people (fun p => p.age > 40)
          questions_asked := s.questions_asked + 1 }, rest)
      else
        some ({ s with
          remaining_people := filterCandidates s.remaining_people (fun p => p.age ≤ 40)
          questions_asked := s.questions_asked + 1 }, rest)

/-! ### Round state machine (`play_round`, `play_game`) -/

/-- The "smart question asking" if/elif chain of `play_round`, reached only
when the round is in progress. -/
def select_question (s : GameState) (inp : List String) :
    Option (GameState × List String) :=
  if s.remaining_people.length > 20 then ask_gender_question s inp
  else if s.remaining_people.length > 10 then
    match ask_entertainment_question s inp with
    | none => none
    | some (s1, br, rest) =>
      match br with
      | .entertainment =>
        if s1.remaining_people.any (fun p => p.plays_sport) then
          ask_sports_question s1 rest
        else ask_film_vs_music_question s1 rest
      | .other => some (s1, rest)
  else if s.remaining_people.length > 5 then ask_nationality_question s inp
  else ask_age_question s inp

/-- Outcome of one call to `play_round`: the three terminal prints, or
`continued` with the updated state (the Python method returning `True`). -/
inductive RoundResult where
  | solved (p : Person) (questions : Nat)
  | noMatch
  | budgetSpent (people : List Person)
  | continued (s : GameState) (rest : List String)
  deriving DecidableEq, Repr

/-- `GuessWhoGame.play_round`: the terminal checks in source order
(size 1, size 0, budget), then one dispatch through the question chain. -/
def play_round (s : GameState) (inp : List String) : Option RoundResult :=
  match s.remaining_people with
  | [p] => some (.solved p s.questions_asked)
  | [] => some .noMatch
  | _ =>
    if s.questions_asked ≥ s.max_questions then some (.budgetSpent s.remaining_people)
    else
      match select_question s inp with
      | none => none
      | some (s', rest) => some (.continued s' rest)

/-- The `while self.play_round(): continue` loop of `play_game`, with fuel;
returns the terminal outcome together with the final value of
`questions_asked`. -/
def run_game (fuel : Nat) (s : GameState) (inp : List String) :
    Option (RoundResult × Nat) :=
  match fuel with
  | 0 => none
  | fuel + 1 =>
    match play_round s inp with
    | none => none
    | some (.continued s' rest) => run_game fuel s' rest
    | some r => some (r, s.questions_asked)

/-! ### Concrete demonstration data -/

/-- A two-person candidate pool: reaching it makes `play_round` a no-op. -/
def demoActor : Person :=
  { sno := 1, name := "A", gender := "M", age := 50, occupation := "Actor",
    industry := "FILM", nationality := "USA" }

def demoSinger : Person :=
  { sno := 2, name := "B", gender := "F", age := 30, occupation := "Singer",
    industry := "MUSIC", nationality := "UK" }

def demoChemist : Person :=
  { sno := 3, name := "C", gender := "F", age := 66, occupation := "Chemist",
    industry := "SCIENCE", nationality := "Poland" }

/-- A fresh game whose catalog holds exactly two people. -/
def twoLeftState : GameState :=
  { remaining_people := [demoActor, demoSinger], questions_asked := 0,
    max_questions := 20 }

/-- Three candidates left with the budget already spent. -/
def budgetSpentState : GameState :=
  { remaining_people := [demoActor, demoSinger, demoChemist],
    questions_asked := 20, max_questions := 20 }

/-- Five tennis players (their occupation text also matches the ball-sport
keyword list) and one golfer, all in SPORTS. -/
def sportsTennisFive : List Person :=
  [⟨1, "T1", "M", 30, "Tennis", "SPORTS", "USA"⟩,
   ⟨2, "T2", "F", 31, "Tennis", "SPORTS", "USA"⟩,
   ⟨3, "T3", "M", 32, "Tennis", "SPORTS", "Spain"⟩,
   ⟨4, "T4", "F", 33, "Tennis", "SPORTS", "Spain"⟩,
   ⟨5, "T5", "M", 34, "Tennis", "SPORTS", "India"⟩]

def sportsDemoGolfer : Person := ⟨6, "G", "M", 47, "Golf", "SPORTS", "USA"⟩

def sportsDemoState : GameState :=
  { remaining_people := sportsTennisFive ++ [sportsDemoGolfer],
    questions_asked := 0, max_questions := 20 }

/-! ### Properties of the nationality tally -/

/-- `nationalities.get(nat, 0)`: the count stored for a key, 0 if absent. -/
def lkp : List (String × Nat) → String → Nat
  | [], _ => 0
  | (k', v) :: rest, k => if k' = k then v else lkp rest k

/-- Index of the first occurrence of a value in a list (the iteration-order
position a Python dict key gets on first insertion). -/
def firstIdx : List String → String → Nat
  | [], _ => 0
  | x :: xs, k => if x = k then 0 else firstIdx xs k + 1

/-- Four candidates whose plurality nationality is India (count 2, tied
with USA but first encountered). -/
def natDemoState : GameState :=
  { remaining_people :=
      [⟨1, "a", "M", 20, "x", "SCIENCE", "India"⟩,
       ⟨2, "b", "M", 21, "x", "SCIENCE", "USA"⟩,
       ⟨3, "c", "F", 22, "x", "SCIENCE", "USA"⟩,
       ⟨4, "d", "F", 23, "x", "SCIENCE", "India"⟩],
    questions_asked := 0, max_questions := 20 }

/-- The state expected after answering Y to the India question. -/
def natDemoAfter : GameState :=
  { remaining_people :=
      [⟨1, "a", "M", 20, "x", "SCIENCE", "India"⟩,
       ⟨4, "d", "F", 23, "x", "SCIENCE", "India"⟩],
    questions_asked := 1, max_questions := 20 }

/-- Five candidates, three of them over 40. -/
def ageDemoState : GameState :=
  { remaining_people :=
      [⟨1, "a", "M", 50, "x", "SCIENCE", "USA"⟩,
       ⟨2, "b", "M", 30, "x", "SCIENCE", "USA"⟩,
       ⟨3, "c", "F", 61, "x", "SCIENCE", "USA"⟩,
       ⟨4, "d", "F", 23, "x", "SCIENCE", "USA"⟩,
       ⟨5, "e", "M", 77, "x", "SCIENCE", "USA"⟩],
    questions_asked := 0, max_questions := 20 }

/-- The state expected after answering Y to the over-40 question. -/
def ageDemoAfter : GameState :=
  { remaining_people :=
      [⟨1, "a", "M", 50, "x", "SCIENCE", "USA"⟩,
       ⟨3, "c", "F", 61, "x", "SCIENCE", "USA"⟩,
       ⟨5, "e", "M", 77, "x", "SCIENCE", "USA"⟩],
    questions_asked := 1, max_questions := 20 }

/-! ### The sample catalog (`data_loader.py`) and the loading pipeline -/

/-- `DataLoader.get_sample_data`: the fifty sample rows, in source order,
as (sno, name, gender, age, occupation, industry, nationality). -/
def sample_data :
    List (Int × String × String × Int × String × String × String) :=
  [(1, "Lionel Messi", "M", 36, "Football", "SPORTS", "Argentina"),
   (2, "Cristiano Ronaldo", "M", 38, "Football", "SPORTS", "Portugal"),
   (3, "Roger Federer", "M", 42, "Tennis", "SPORTS", "Switzerland"),
   (4, "Rafael Nadal", "M", 37, "Tennis", "SPORTS", "Spain"),
   (5, "Mohammad Ali", "M", 74, "Boxing", "SPORTS", "USA"),
   (6, "Floyd Mayweather", "M", 46, "Boxing", "SPORTS", "USA"),
   (7, "Serena Williams", "F", 41, "Tennis", "SPORTS", "USA"),
   (8, "Venus Williams", "F", 43, "Tennis", "SPORTS", "USA"),
   (9, "Simone Biles", "F", 26, "Gymnastics", "SPORTS", "USA"),
   (10, "Tiger Woods", "M", 47, "Golf", "SPORTS", "USA"),
   (11, "Tom Brady", "M", 46, "American Football", "SPORTS", "USA"),
   (12, "Michael Jordan", "M", 60, "Basketball", "SPORTS", "USA"),
   (13, "Magnus Carlsen", "M", 32, "Chess", "SPORTS", "Norway"),
   (14, "Lebron James", "M", 38, "Basketball", "SPORTS", "USA"),
   (15, "Virat Kohli", "M", 34, "Cricket", "SPORTS", "India"),
   (16, "Sachin Tendulkar", "M", 50, "Cricket", "SPORTS", "India"),
   (17, "Lewis Hamilton", "M", 38, "Racing", "SPORTS", "Great Britain"),
   (18, "Barack Obama", "M", 62, "Activist", "POLITICS", "USA"),
   (19, "Indira Gandhi", "F", 66, "Activist", "POLITICS", "India"),
   (20, "Mahatma Gandhi", "M", 78, "Lawyer", "POLITICS", "India"),
   (21, "Nelson Mandela", "M", 95, "Lawyer", "POLITICS", "South Africa"),
   (22, "Rosa Parks", "F", 92, "Activist", "POLITICS", "USA"),
   (23, "Martin Luther King Jr", "M", 39, "Philosopher", "POLITICS", "USA"),
   (24, "Malala Yousafzai", "F", 26, "Activist", "POLITICS", "Pakistan"),
   (25, "Margaret Thatcher", "F", 87, "Activist", "POLITICS", "Great Britain"),
   (26, "Angela Merkel", "F", 69, "Activist", "POLITICS", "Germany"),
   (27, "Mother Teresa", "F", 87, "Nun", "POLITICS", "Albania"),
   (28, "Isaac Newton", "M", 84, "Physicist", "SCIENCE", "Great Britain"),
   (29, "Albert Einstein", "M", 76, "Physicist", "SCIENCE", "Germany"),
   (30, "Galileo Galilei", "M", 77, "Astronomer", "SCIENCE", "Italy"),
   (31, "Marie Curie", "F", 66, "Chemist", "SCIENCE", "Poland"),
   (32, "Niels Bohr", "M", 77, "Physicist", "SCIENCE", "Denmark"),
   (33, "Stephen Hawking", "M", 76, "Physicist", "SCIENCE", "Great Britain"),
   (34, "Nikola Tesla", "M", 86, "Engineer", "SCIENCE", "Serbia"),
   (35, "André-Marie Ampère", "M", 61, "Physicist", "SCIENCE", "France"),
   (36, "Taylor Swift", "F", 34, "Singer", "MUSIC", "USA"),
   (37, "Ed Sheeran", "M", 32, "Singer", "MUSIC", "Great Britain"),
   (38, "Beyoncé", "F", 42, "Singer", "MUSIC", "USA"),
   (39, "Michael Jackson", "M", 50, "Singer", "MUSIC", "USA"),
   (40, "Elvis Presley", "M", 42, "Singer", "MUSIC", "USA"),
   (41, "Leonardo DiCaprio", "M", 49, "Actor", "FILM", "USA"),
   (42, "Meryl Streep", "F", 74, "Actress", "FILM", "USA"),
   (43, "Robert Downey Jr", "M", 58, "Actor", "FILM", "USA"),
   (44, "Jennifer Lawrence", "F", 33, "Actress", "FILM", "USA"),
   (45, "Tom Hanks", "M", 67, "Actor", "FILM", "USA"),
   (46, "Elon Musk", "M", 52, "Entrepreneur", "BUSINESS", "South Africa"),
   (47, "Bill Gates", "M", 68, "Entrepreneur", "BUSINESS", "USA"),
   (48, "Warren Buffett", "M", 93, "Investor", "BUSINESS", "USA"),
   (49, "Oprah Winfrey", "F", 70, "Media Mogul", "BUSINESS", "USA"),
   (50, "Jeff Bezos", "M", 60, "Entrepreneur", "BUSINESS", "USA")]

/-- The type normalization `DatabaseManager.add_record` applies before
insertion: gender becomes the first letter of its upper-casing, industry is
upper-cased, the other fields pass through. -/
def add_record (r : Int × String × String × Int × String × String × String) :
    Int × String × String × Int × String × String × String :=
  match r with
  | (sno, name, gender, age, occ, ind, nat) =>
    (sno, name, String.mk ((strUpper gender).data.take 1), age, occ,
      strUpper ind, nat)

/-- The people `GuessWhoGame.load_people` sees: every sample row inserted
through `add_record` and read back row by row through `Person.from_tuple`
(rows come back `ORDER BY sno`, which is the insertion order here). -/
def loadedPeople : List Person :=
  sample_data.map (fun r =>
    match add_record r with
    | (sno, name, gender, age, occ, ind, nat) =>
      from_tuple sno name gender age occ ind nat)

/-- The Person invariant as the spec words it: gender in {M, F}, industry
in the closed label set, age nonnegative. -/
def specValidPerson (p : Person) : Bool :=
  (p.gender = "M" || p.gender = "F") &&
  ["SPORTS", "POLITICS", "SCIENCE", "MUSIC", "FILM", "BUSINESS"].contains
    p.industry &&
  (0 ≤ p.age)

/-! ### Theorems -/

/-! ### Basic properties of the filtering and input primitives -/

theorem filterCandidates_sublist (ps : List Person) (pred : Person → Bool) :
    List.Sublist (filterCandidates ps pred) ps :=
  List.filter_sublist ps

theorem getValid_mem {allowed : List String} {inp : List String} {a : String}
    {rest : List String} (h : getValid allowed inp = some (a, rest)) :
    a ∈ allowed := by
  induction inp with
  | nil => simp [getValid] at h
  | cons x xs ih =>
    unfold getValid at h
    by_cases hx : allowed.contains (pyInputNorm x)
    · rw [if_pos hx] at h
      obtain ⟨rfl, rfl⟩ := by simpa using h
      simpa using hx
    · rw [if_neg hx] at h
      exact ih h

/-- A single-question step: the common shape of the state update every
answered question performs. -/
theorem ask_gender_step {s s' : GameState} {inp rest : List String}
    (h : ask_gender_question s inp = some (s', rest)) :
    s'.questions_asked = s.questions_asked + 1 ∧
      s'.max_questions = s.max_questions ∧
      List.Sublist s'.remaining_people s.remaining_people := by
  unfold ask_gender_question at h
  split at h
  · exact absurd h (by simp)
  · rename_i a r hg
    obtain ⟨rfl, rfl⟩ : _ ∧ r = rest := by simpa [eq_comm] using h
    exact ⟨rfl, rfl, filterCandidates_sublist _ _⟩

theorem ask_entertainment_step {s s' : GameState} {inp rest : List String}
    {br : IndustryBranch}
    (h : ask_entertainment_question s inp = some (s', br, rest)) :
    s'.questions_asked = s.questions_asked + 1 ∧
      s'.max_questions = s.max_questions ∧
      List.Sublist s'.remaining_people s.remaining_people := by
  unfold ask_entertainment_question at h
  split at h
  · exact absurd h (by simp)
  · rename_i a r hg
    by_cases ha : a = "Y" <;> simp only [ha, if_pos, if_neg, reduceIte] at h <;>
    · obtain ⟨rfl, rfl, rfl⟩ : _ ∧ _ ∧ r = rest := by simpa [eq_comm] using h
      exact ⟨rfl, rfl, filterCandidates_sublist _ _⟩

theorem ask_tennis_step {s s' : GameState} {inp rest : List String}
    (h : ask_tennis_question s inp = some (s', rest)) :
    s'.questions_asked = s.questions_asked + 1 ∧
      s'.max_questions = s.max_questions ∧
      List.Sublist s'.remaining_people s.remaining_people := by
  unfold ask_tennis_question at h
  split at h
  · exact absurd h (by simp)
  · rename_i a r hg
    by_cases ha : a = "Y" <;> simp only [ha, reduceIte] at h <;>
    · obtain ⟨rfl, rfl⟩ : _ ∧ r = rest := by simpa [eq_comm] using h
      exact ⟨rfl, rfl, filterCandidates_sublist _ _⟩

theorem ask_ball_sport_step {s s' : GameState} {inp rest : List String}
    (h : ask_ball_sport_question s inp = some (s', rest)) :
    s'.questions_asked = s.questions_asked + 1 ∧
      s'.max_questions = s.max_questions ∧
      List.Sublist s'.remaining_people s.remaining_people := by
  unfold ask_ball_sport_question at h
  split at h
  · exact absurd h (by simp)
  · rename_i a r hg
    by_cases ha : a = "Y" <;> simp only [ha, reduceIte] at h <;>
    · obtain ⟨rfl, rfl⟩ : _ ∧ r = rest := by simpa [eq_comm] using h
      exact ⟨rfl, rfl, filterCandidates_sublist _ _⟩

theorem ask_film_vs_music_step {s s' : GameState} {inp rest : List String}
    (h : ask_film_vs_music_question s inp = some (s', rest)) :
    s'.questions_asked = s.questions_asked + 1 ∧
      s'.max_questions = s.max_questions ∧
      List.Sublist s'.remaining_people s.remaining_people := by
  unfold ask_film_vs_music_question at h
  split at h
  · exact absurd h (by simp)
  · rename_i a r hg
    by_cases ha : a = "Y" <;> simp only [ha, reduceIte] at h <;>
    · obtain ⟨rfl, rfl⟩ : _ ∧ r = rest := by simpa [eq_comm] using h
      exact ⟨rfl, rfl, filterCandidates_sublist _ _⟩

theorem afterSportsAnswer_step (s : GameState) (a : String) :
    (afterSportsAnswer s a).questions_asked = s.questions_asked + 1 ∧
      (afterSportsAnswer s a).max_questions = s.max_questions ∧
      List.Sublist (afterSportsAnswer s a).remaining_people s.remaining_people := by
  unfold afterSportsAnswer
  by_cases ha : a = "Y"
  · rw [if_pos ha]
    exact ⟨rfl, rfl, filterCandidates_sublist _ _⟩
  · rw [if_neg ha]
    exact ⟨rfl, rfl, filterCandidates_sublist _ _⟩

theorem sportsTennisStage_step {s1 s2 : GameState} {rest rest2 : List String}
    (h : sportsTennisStage s1 rest = some (s2, rest2)) :
    s1.questions_asked ≤ s2.questions_asked ∧
      s2.questions_asked ≤ s1.questions_asked + 1 ∧
      s2.max_questions = s1.max_questions ∧
      List.Sublist s2.remaining_people s1.remaining_people := by
  unfold sportsTennisStage at h
  split at h
  · obtain ⟨h1, h2, h3⟩ := ask_tennis_step h
    exact ⟨by omega, by omega, h2, h3⟩
  · obtain ⟨rfl, rfl⟩ : s1 = s2 ∧ rest = rest2 := by simpa using h
    exact ⟨le_refl _, by omega, rfl, List.Sublist.refl _⟩

theorem sportsBallStage_step {s2 s3 : GameState} {rest2 rest3 : List String}
    (h : sportsBallStage s2 rest2 = some (s3, rest3)) :
    s2.questions_asked ≤ s3.questions_asked ∧
      s3.questions_asked ≤ s2.questions_asked + 1 ∧
      s3.max_questions = s2.max_questions ∧
      List.Sublist s3.remaining_people s2.remaining_people := by
  unfold sportsBallStage at h
  split at h
  · obtain ⟨h1, h2, h3⟩ := ask_ball_sport_step h
    exact ⟨by omega, by omega, h2, h3⟩
  · obtain ⟨rfl, rfl⟩ : s2 = s3 ∧ rest2 = rest3 := by simpa using h
    exact ⟨le_refl _, by omega, rfl, List.Sublist.refl _⟩

theorem ask_sports_step {s s' : GameState} {inp rest : List String}
    (h : ask_sports_question s inp = some (s', rest)) :
    s.questions_asked ≤ s'.questions_asked ∧
      s'.questions_asked ≤ s.questions_asked + 3 ∧
      s'.max_questions = s.max_questions ∧
      List.Sublist s'.remaining_people s.remaining_people := by
  unfold ask_sports_question at h
  split at h
  · obtain ⟨rfl, rfl⟩ : _ ∧ inp = rest := by simpa using h
    exact ⟨le_refl _, by omega, rfl, List.Sublist.refl _⟩
  · split at h
    · exact absurd h (by simp)
    · rename_i a r hg
      split at h
      · exact absurd h (by simp)
      · rename_i s2 rest2 hts
        obtain ⟨a1, a2, a3⟩ := afterSportsAnswer_step s a
        obtain ⟨t1, t2, t3, t4⟩ := sportsTennisStage_step hts
        obtain ⟨b1, b2, b3, b4⟩ := sportsBallStage_step h
        exact ⟨by omega, by omega, by omega, (b4.trans t4).trans a3⟩

theorem ask_nationality_step {s s' : GameState} {inp rest : List String}
    (h : ask_nationality_question s inp = some (s', rest)) :
    s.questions_asked ≤ s'.questions_asked ∧
      s'.questions_asked ≤ s.questions_asked + 1 ∧
      s'.max_questions = s.max_questions ∧
      List.Sublist s'.remaining_people s.remaining_people := by
  unfold ask_nationality_question at h
  split at h
  · obtain ⟨rfl, rfl⟩ : _ ∧ inp = rest := by simpa [eq_comm] using h
    exact ⟨le_refl _, by omega, rfl, List.Sublist.refl _⟩
  · split at h
    · obtain ⟨rfl, rfl⟩ : _ ∧ inp = rest := by simpa [eq_comm] using h
      exact ⟨le_refl _, by omega, rfl, List.Sublist.refl _⟩
    · rename_i mc cnt hmc
      split at h
      · split at h
        · exact absurd h (by simp)
        · rename_i a r hg
          by_cases ha : a = "Y" <;> simp only [ha, reduceIte] at h <;>
          · obtain ⟨rfl, rfl⟩ : _ ∧ r = rest := by simpa using h
            exact ⟨Nat.le_succ _, Nat.le_refl _, rfl, filterCandidates_sublist _ _⟩
      · obtain ⟨rfl, rfl⟩ : _ ∧ inp = rest := by simpa using h
        exact ⟨le_refl _, by omega, rfl, List.Sublist.refl _⟩

theorem ask_age_step {s s' : GameState} {inp rest : List String}
    (h : ask_age_question s inp = some (s', rest)) :
    s.questions_asked ≤ s'.questions_asked ∧
      s'.questions_asked ≤ s.questions_asked + 1 ∧
      s'.max_questions = s.max_questions ∧
      List.Sublist s'.remaining_people s.remaining_people := by
  unfold ask_age_question at h
  split at h
  · obtain ⟨rfl, rfl⟩ : _ ∧ inp = rest := by simpa [eq_comm] using h
    exact ⟨le_refl _, by omega, rfl, List.Sublist.refl _⟩
  · split at h
    · exact absurd h (by simp)
    · rename_i a r hg
      by_cases ha : a = "Y" <;> simp only [ha, reduceIte] at h <;>
      · obtain ⟨rfl, rfl⟩ : _ ∧ r = rest := by simpa using h
        exact ⟨Nat.le_succ _, Nat.le_refl _, rfl, filterCandidates_sublist _ _⟩

/-- Any in-progress round changes the state monotonically: the counter can
only go up, by at most 4 (entertainment + sports + tennis + ball-sport),
the budget field is untouched, and the candidate list only shrinks, as an
order-preserving subsequence. -/
theorem select_question_step {s s' : GameState} {inp rest : List String}
    (h : select_question s inp = some (s', rest)) :
    s.questions_asked ≤ s'.questions_asked ∧
      s'.questions_asked ≤ s.questions_asked + 4 ∧
      s'.max_questions = s.max_questions ∧
      List.Sublist s'.remaining_people s.remaining_people := by
  unfold select_question at h
  split at h
  · obtain ⟨h1, h2, h3⟩ := ask_gender_step h
    exact ⟨by omega, by omega, h2, h3⟩
  · split at h
    · split at h
      · exact absurd h (by simp)
      · rename_i s1 br r hent
        obtain ⟨he1, he2, he3⟩ := ask_entertainment_step hent
        cases br with
        | entertainment =>
          simp only [] at h
          split at h
          · obtain ⟨hsp1, hsp2, hsp3, hsp4⟩ := ask_sports_step h
            exact ⟨by omega, by omega, by omega, hsp4.trans he3⟩
          · obtain ⟨hf1, hf2, hf3⟩ := ask_film_vs_music_step h
            exact ⟨by omega, by omega, by omega, hf3.trans he3⟩
        | other =>
          obtain ⟨rfl, rfl⟩ : s1 = s' ∧ r = rest := by simpa [eq_comm] using h
          exact ⟨by omega, by omega, he2, he3⟩
    · split at h
      · obtain ⟨h1, h2, h3, h4⟩ := ask_nationality_step h
        exact ⟨h1, by omega, h3, h4⟩
      · obtain ⟨h1, h2, h3, h4⟩ := ask_age_step h
        exact ⟨h1, by omega, h3, h4⟩

/-- A round that continues started strictly under budget and obeys the
monotonicity bounds of `select_question_step`. -/
theorem play_round_continued {s s' : GameState} {inp rest : List String}
    (h : play_round s inp = some (.continued s' rest)) :
    s.questions_asked < s.max_questions ∧
      s.questions_asked ≤ s'.questions_asked ∧
      s'.questions_asked ≤ s.questions_asked + 4 ∧
      s'.max_questions = s.max_questions ∧
      List.Sublist s'.remaining_people s.remaining_people ∧
      2 ≤ s.remaining_people.length := by
  unfold play_round at h
  split at h
  · exact absurd h (by simp)
  · exact absurd h (by simp)
  · rename_i hne1 hne2
    split at h
    · exact absurd h (by simp)
    · rename_i hbudget
      split at h
      · exact absurd h (by simp)
      · rename_i s1 r hsel
        obtain ⟨rfl, rfl⟩ : s1 = s' ∧ r = rest := by simpa using h
        obtain ⟨h1, h2, h3, h4⟩ := select_question_step hsel
        refine ⟨by omega, h1, h2, h3, h4, ?_⟩
        cases hps : s.remaining_people with
        | nil => exact absurd hps (by rw [hps] at hne2; exact fun _ => hne2 rfl)
        | cons p tl =>
          cases tl with
          | nil => exact absurd hps (by rw [hps] at hne1; exact fun _ => hne1 p rfl)
          | cons q tl2 => simp

/-- C1: the spec requires every session to terminate within the
`max_questions` budget of answered questions.  The code does not: with two
candidates remaining and the counter below the budget, `play_round` skips
the age question (its size ≤ 2 early return), asks nothing, increments
nothing, and returns `continued` with the state unchanged, so `play_game`'s
`while self.play_round()` loop never terminates — the counter stays at 0
and the budget check never fires.  This theorem evaluates the code at that
failing input: one round is an exact no-op, and no amount of fuel finishes
the session.  The final conjunct shows the state is reachable in the real
game: on the fifty loaded sample people, answering F (gender), N (not
entertainment), Y (from USA) leaves two candidates (Rosa Parks and Oprah
Winfrey) and the session never ends. -/
theorem C1_budget_termination_loop_eval :
    (play_round twoLeftState ["Y"] =
      some (RoundResult.continued twoLeftState ["Y"]) ∧
     run_game 30 twoLeftState ["Y"] = none ∧
     twoLeftState.questions_asked = 0 ∧
     twoLeftState.max_questions = 20 ∧
     twoLeftState.remaining_people.length = 2) ∧
    run_game 60 (initState loadedPeople) ["F", "N", "Y"] = none := by
  exact ⟨⟨by decide, by decide, rfl, rfl, rfl⟩, by decide⟩

/-- Helper: the budget branch of `play_round` reports exactly the remaining
candidate list. -/
theorem play_round_budget_eq {s : GameState} {inp : List String}
    {ps : List Person}
    (h : play_round s inp = some (RoundResult.budgetSpent ps)) :
    ps = s.remaining_people := by
  unfold play_round at h
  split at h
  · exact absurd h (by simp)
  · exact absurd h (by simp)
  · split at h
    · simpa [eq_comm] using h
    · split at h
      · exact absurd h (by simp)
      · exact absurd h (by simp)

/-- Helper: whatever terminal result a run reaches, a `budgetSpent` listing
is a subsequence of the starting candidate list. -/
theorem run_game_budget_sublist {fuel : Nat} {s : GameState}
    {inp : List String} {r : RoundResult} {q : Nat}
    (h : run_game fuel s inp = some (r, q)) :
    ∀ ps, r = RoundResult.budgetSpent ps →
      List.Sublist ps s.remaining_people := by
  induction fuel generalizing s inp with
  | zero => simp [run_game] at h
  | succ n ih =>
    unfold run_game at h
    cases hpr : play_round s inp with
    | none => rw [hpr] at h; exact absurd h (by simp)
    | some r0 =>
      rw [hpr] at h
      cases r0 with
      | continued s' rest =>
        intro ps hps
        have hsub := ih h ps hps
        exact hsub.trans (play_round_continued hpr).2.2.2.2.1
      | solved p qn =>
        obtain ⟨rfl, rfl⟩ : RoundResult.solved p qn = r ∧ s.questions_asked = q := by
          simpa using h
        intro ps hps
        exact absurd hps (by simp)
      | noMatch =>
        obtain ⟨rfl, rfl⟩ : RoundResult.noMatch = r ∧ s.questions_asked = q := by
          simpa using h
        intro ps hps
        exact absurd hps (by simp)
      | budgetSpent ps0 =>
        obtain ⟨rfl, rfl⟩ : RoundResult.budgetSpent ps0 = r ∧ s.questions_asked = q := by
          simpa using h
        intro ps hps
        obtain rfl : ps0 = ps := by simpa using hps
        obtain rfl := play_round_budget_eq hpr
        exact List.Sublist.refl _

/-- C2: the terminal checks of `play_round` run in the stated priority
order: a single survivor is revealed as `Solved` with the question count
(even if the budget is spent); an empty pool gives `Exhausted(NoMatch)`;
otherwise a spent budget (`questions_asked ≥ max_questions`) gives
`Exhausted(BudgetSpent)` listing exactly the remaining candidates; and any
other state proceeds to the question chain.  Candidate lists reached from
the initial catalog are subsequences of it, so the `BudgetSpent` listing is
in original catalog order. -/
theorem C2_terminal_priority (s : GameState) (inp : List String) :
    (∀ p, s.remaining_people = [p] →
      play_round s inp = some (RoundResult.solved p s.questions_asked)) ∧
    (s.remaining_people = [] → play_round s inp = some RoundResult.noMatch) ∧
    (2 ≤ s.remaining_people.length → s.max_questions ≤ s.questions_asked →
      play_round s inp = some (RoundResult.budgetSpent s.remaining_people)) ∧
    (2 ≤ s.remaining_people.length → s.questions_asked < s.max_questions →
      play_round s inp =
        (select_question s inp).map (fun pr => RoundResult.continued pr.1 pr.2)) ∧
    (∀ fuel people q ps,
      run_game fuel (initState people) inp = some (RoundResult.budgetSpent ps, q) →
      List.Sublist ps people) := by
  refine ⟨?_, ?_, ?_, ?_, ?_⟩
  · intro p hp
    unfold play_round
    rw [hp]
  · intro hp
    unfold play_round
    rw [hp]
  · intro hlen hb
    obtain ⟨p1, p2, tl, hps⟩ : ∃ p1 p2 tl, s.remaining_people = p1 :: p2 :: tl := by
      match hps2 : s.remaining_people, hlen with
      | p1 :: p2 :: tl, _ => exact ⟨p1, p2, tl, rfl⟩
    unfold play_round
    rw [hps]
    simp [hb]
  · intro hlen hb
    obtain ⟨p1, p2, tl, hps⟩ : ∃ p1 p2 tl, s.remaining_people = p1 :: p2 :: tl := by
      match hps2 : s.remaining_people, hlen with
      | p1 :: p2 :: tl, _ => exact ⟨p1, p2, tl, rfl⟩
    unfold play_round
    rw [hps]
    simp only [ge_iff_le, if_neg (by omega : ¬ s.max_questions ≤ s.questions_asked)]
    cases h2 : select_question s inp with
    | none => simp
    | some pr => cases pr with | mk a b => simp
  · intro fuel people q ps h
    exact run_game_budget_sublist h ps rfl

/-- Concrete instantiation of the `BudgetSpent` branch of `C2`: three
candidates and a spent budget are listed exactly, in order. -/
theorem C2_terminal_priority_witness :
    play_round budgetSpentState [] =
      some (RoundResult.budgetSpent [demoActor, demoSinger, demoChemist]) :=
  (C2_terminal_priority budgetSpentState []).2.2.1 (by decide) (by decide)

/-- C6: the candidate filter returns the order-preserving subsequence of
its input satisfying the predicate, it is idempotent, and across any
continued round the candidate pool only shrinks (it is a subsequence of the
previous pool, so it never grows). -/
theorem C6_filter_subsequence (ps : List Person) (pred : Person → Bool) :
    List.Sublist (filterCandidates ps pred) ps ∧
    (∀ p, p ∈ filterCandidates ps pred ↔ p ∈ ps ∧ pred p = true) ∧
    filterCandidates (filterCandidates ps pred) pred = filterCandidates ps pred ∧
    (∀ (s s' : GameState) (inp rest : List String),
      play_round s inp = some (RoundResult.continued s' rest) →
      List.Sublist s'.remaining_people s.remaining_people ∧
      s'.remaining_people.length ≤ s.remaining_people.length) := by
  refine ⟨filterCandidates_sublist _ _, ?_, ?_, ?_⟩
  · intro p
    simp [filterCandidates, List.mem_filter]
  · simp [filterCandidates, List.filter_filter]
  · intro s s' inp rest h
    have hsub := (play_round_continued h).2.2.2.2.1
    exact ⟨hsub, hsub.length_le⟩

/-- C9: membership of the industry label in `['SPORTS', 'MUSIC', 'FILM']`
holds exactly when exactly one of the three single-label predicates holds,
and those predicates are pairwise exclusive since they compare the same
field against distinct labels. -/
theorem C9_entertainment_partition (p : Person) :
    (p.is_in_entertainment = true ↔
      ((p.plays_sport = true ∧ p.is_in_music = false ∧ p.is_in_film = false) ∨
       (p.plays_sport = false ∧ p.is_in_music = true ∧ p.is_in_film = false) ∨
       (p.plays_sport = false ∧ p.is_in_music = false ∧ p.is_in_film = true))) ∧
    ¬(p.plays_sport = true ∧ p.is_in_music = true) ∧
    ¬(p.plays_sport = true ∧ p.is_in_film = true) ∧
    ¬(p.is_in_music = true ∧ p.is_in_film = true) := by
  simp only [Person.is_in_entertainment, Person.plays_sport, Person.is_in_music,
    Person.is_in_film, List.contains_cons, List.contains_nil,
    Bool.or_eq_true, beq_iff_eq, Bool.or_false,
    decide_eq_true_eq, decide_eq_false_iff_not]
  by_cases h1 : p.industry = "SPORTS" <;> by_cases h2 : p.industry = "MUSIC" <;>
    by_cases h3 : p.industry = "FILM" <;> simp_all

/-- C10: a `tennis` occupation-substring match is one of the five
ball-sport keyword matches, so `plays_tennis` implies `plays_ball_sport`. -/
theorem C10_tennis_implies_ball (p : Person) (h : p.plays_tennis = true) :
    p.plays_ball_sport = true := by
  simp only [Person.plays_ball_sport, List.any_cons, List.any_nil,
    Bool.or_eq_true]
  exact Or.inr (Or.inr (Or.inl h))

/-- Concrete instantiation of `C10` on a tennis player. -/
theorem C10_tennis_implies_ball_witness :
    (⟨7, "Serena Williams", "F", 41, "Tennis", "SPORTS", "USA"⟩ :
        Person).plays_tennis = true ∧
      (⟨7, "Serena Williams", "F", 41, "Tennis", "SPORTS", "USA"⟩ :
        Person).plays_ball_sport = true :=
  ⟨by decide, C10_tennis_implies_ball _ (by decide)⟩

/-- C7: an input whose normalization falls outside the allowed set is
dropped by the validation loop of every question: the computation on the
stream starting with the invalid entry equals the computation on the rest
of the stream, so no counter is incremented and no candidate is removed
until a valid answer appears.  (The sports, age and nationality questions
carry the guards under which their prompt is actually issued.) -/
theorem C7_invalid_input_reprompt (s : GameState) (x : String)
    (inp : List String) :
    (∀ allowed : List String, allowed.contains (pyInputNorm x) = false →
      getValid allowed (x :: inp) = getValid allowed inp) ∧
    ((["M", "F"] : List String).contains (pyInputNorm x) = false →
      ask_gender_question s (x :: inp) = ask_gender_question s inp) ∧
    ((["Y", "N"] : List String).contains (pyInputNorm x) = false →
      (ask_entertainment_question s (x :: inp) = ask_entertainment_question s inp ∧
       ask_tennis_question s (x :: inp) = ask_tennis_question s inp ∧
       ask_ball_sport_question s (x :: inp) = ask_ball_sport_question s inp ∧
       ask_film_vs_music_question s (x :: inp) = ask_film_vs_music_question s inp) ∧
      (s.remaining_people.any (fun p => p.plays_sport) = true →
        ask_sports_question s (x :: inp) = ask_sports_question s inp) ∧
      (2 < s.remaining_people.length →
        ask_age_question s (x :: inp) = ask_age_question s inp) ∧
      (∀ mc cnt, 2 < s.remaining_people.length →
        most_common s.remaining_people = some (mc, cnt) → 1 < cnt →
        ask_nationality_question s (x :: inp) = ask_nationality_question s inp)) := by
  have hdrop : ∀ allowed : List String, allowed.contains (pyInputNorm x) = false →
      getValid allowed (x :: inp) = getValid allowed inp := by
    intro allowed hbad
    show (if allowed.contains (pyInputNorm x) = true then some (pyInputNorm x, inp)
      else getValid allowed inp) = getValid allowed inp
    rw [hbad]
    simp
  refine ⟨hdrop, ?_, ?_⟩
  · intro hbad
    unfold ask_gender_question
    rw [hdrop _ hbad]
  · intro hbad
    refine ⟨⟨?_, ?_, ?_, ?_⟩, ?_, ?_, ?_⟩
    · unfold ask_entertainment_question; rw [hdrop _ hbad]
    · unfold ask_tennis_question; rw [hdrop _ hbad]
    · unfold ask_ball_sport_question; rw [hdrop _ hbad]
    · unfold ask_film_vs_music_question; rw [hdrop _ hbad]
    · intro hany
      unfold ask_sports_question
      simp [hany, hdrop _ hbad]
    · intro hlen
      unfold ask_age_question
      rw [if_neg (by omega), if_neg (by omega), hdrop _ hbad]
    · intro mc cnt hlen hmc hcnt
      unfold ask_nationality_question
      rw [if_neg (by omega), if_neg (by omega), hmc]
      simp [hcnt, hdrop _ hbad]

/-- Concrete instantiation of `C7`: the entry `"Q"` is invalid for the
gender question and is skipped without advancing anything. -/
theorem C7_invalid_input_reprompt_witness :
    ask_gender_question twoLeftState ["Q", "M"] =
      ask_gender_question twoLeftState ["M"] :=
  (C7_invalid_input_reprompt twoLeftState "Q" ["M"]).2.1 (by decide)

/-- Stage-skip equation: the tennis sub-question does not run when its
guard fails. -/
theorem sportsTennisStage_skip {s1 : GameState} {rest : List String}
    (h : ¬(s1.remaining_people.length > 3 ∧
      s1.remaining_people.any (fun p => p.plays_tennis) = true)) :
    sportsTennisStage s1 rest = some (s1, rest) := by
  unfold sportsTennisStage
  exact if_neg h

/-- Stage-fire equation: the tennis sub-question runs under its guard. -/
theorem sportsTennisStage_fire {s1 : GameState} {rest : List String}
    (h : s1.remaining_people.length > 3 ∧
      s1.remaining_people.any (fun p => p.plays_tennis) = true) :
    sportsTennisStage s1 rest = ask_tennis_question s1 rest := by
  unfold sportsTennisStage
  exact if_pos h

theorem sportsBallStage_skip {s2 : GameState} {rest2 : List String}
    (h : ¬(s2.remaining_people.length > 3 ∧
      s2.remaining_people.any (fun p => p.plays_ball_sport) = true)) :
    sportsBallStage s2 rest2 = some (s2, rest2) := by
  unfold sportsBallStage
  exact if_neg h

theorem sportsBallStage_fire {s2 : GameState} {rest2 : List String}
    (h : s2.remaining_people.length > 3 ∧
      s2.remaining_people.any (fun p => p.plays_ball_sport) = true) :
    sportsBallStage s2 rest2 = ask_ball_sport_question s2 rest2 := by
  unfold sportsBallStage
  exact if_pos h

/-- Unfolding helper: once the sports question has a valid answer, the rest
of `ask_sports_question` is the two guarded sub-question stages. -/
theorem ask_sports_question_unfold (s : GameState) (inp : List String)
    (a : String) (rest : List String)
    (hany : s.remaining_people.any (fun p => p.plays_sport) = true)
    (hg : getValid ["Y", "N"] inp = some (a, rest)) :
    ask_sports_question s inp =
      (match sportsTennisStage (afterSportsAnswer s a) rest with
       | none => none
       | some (s2, rest2) => sportsBallStage s2 rest2) := by
  unfold ask_sports_question
  rw [hany, hg]
  rfl

/-- C8: after the plays-sports answer produces `afterSportsAnswer s a` (one
question counted), the tennis sub-question runs only under its guard (more
than 3 remain and some remaining candidate plays tennis), the ball-sport
sub-question runs only under its own guard evaluated on whatever state the
tennis stage left, both can fire in the same round with each answer adding
exactly 1 to the counter, and both are skipped whenever 3 or fewer
remain. -/
theorem C8_sports_subquestion_guards (s : GameState) (inp : List String)
    (a : String) (rest : List String)
    (hany : s.remaining_people.any (fun p => p.plays_sport) = true)
    (hg : getValid ["Y", "N"] inp = some (a, rest)) :
    ((afterSportsAnswer s a).questions_asked = s.questions_asked + 1) ∧
    ((afterSportsAnswer s a).remaining_people.length ≤ 3 →
      ask_sports_question s inp = some (afterSportsAnswer s a, rest)) ∧
    (¬((afterSportsAnswer s a).remaining_people.length > 3 ∧
        (afterSportsAnswer s a).remaining_people.any (fun p => p.plays_tennis) = true) →
     ¬((afterSportsAnswer s a).remaining_people.length > 3 ∧
        (afterSportsAnswer s a).remaining_people.any (fun p => p.plays_ball_sport) = true) →
      ask_sports_question s inp = some (afterSportsAnswer s a, rest)) ∧
    (¬((afterSportsAnswer s a).remaining_people.length > 3 ∧
        (afterSportsAnswer s a).remaining_people.any (fun p => p.plays_tennis) = true) →
      ((afterSportsAnswer s a).remaining_people.length > 3 ∧
        (afterSportsAnswer s a).remaining_people.any (fun p => p.plays_ball_sport) = true) →
      ask_sports_question s inp =
        ask_ball_sport_question (afterSportsAnswer s a) rest ∧
      (∀ s3 rest3,
        ask_ball_sport_question (afterSportsAnswer s a) rest = some (s3, rest3) →
        s3.questions_asked = s.questions_asked + 2)) ∧
    (((afterSportsAnswer s a).remaining_people.length > 3 ∧
        (afterSportsAnswer s a).remaining_people.any (fun p => p.plays_tennis) = true) →
      ∀ s2 rest2,
        ask_tennis_question (afterSportsAnswer s a) rest = some (s2, rest2) →
        s2.questions_asked = s.questions_asked + 2 ∧
        (¬(s2.remaining_people.length > 3 ∧
            s2.remaining_people.any (fun p => p.plays_ball_sport) = true) →
          ask_sports_question s inp = some (s2, rest2)) ∧
        ((s2.remaining_people.length > 3 ∧
            s2.remaining_people.any (fun p => p.plays_ball_sport) = true) →
          ask_sports_question s inp = ask_ball_sport_question s2 rest2 ∧
          (∀ s3 rest3, ask_ball_sport_question s2 rest2 = some (s3, rest3) →
            s3.questions_asked = s.questions_asked + 3))) := by
  have hq1 := (afterSportsAnswer_step s a).1
  have hunfold := ask_sports_question_unfold s inp a rest hany hg
  refine ⟨hq1, ?_, ?_, ?_, ?_⟩
  · intro hle
    rw [hunfold, sportsTennisStage_skip (by omega)]
    exact sportsBallStage_skip (by omega)
  · intro hnt hnb
    rw [hunfold, sportsTennisStage_skip hnt]
    exact sportsBallStage_skip hnb
  · intro hnt hb
    constructor
    · rw [hunfold, sportsTennisStage_skip hnt]
      exact sportsBallStage_fire hb
    · intro s3 rest3 h3
      have := (ask_ball_sport_step h3).1
      omega
  · intro ht s2 rest2 h2
    have h2q := (ask_tennis_step h2).1
    refine ⟨by omega, ?_, ?_⟩
    · intro hnb
      rw [hunfold, sportsTennisStage_fire ht, h2]
      exact sportsBallStage_skip hnb
    · intro hb
      constructor
      · rw [hunfold, sportsTennisStage_fire ht, h2]
        exact sportsBallStage_fire hb
      · intro s3 rest3 h3
        have := (ask_ball_sport_step h3).1
        omega

/-- Concrete instantiation of `C8`: answering Y/Y/Y from six sports people
fires the sports question, the tennis sub-question and the ball-sport
sub-question in one round, ending with the counter at 3. -/
theorem C8_sports_subquestion_guards_witness :
    ask_sports_question sportsDemoState ["Y", "Y", "Y"] =
      some ({ remaining_people := sportsTennisFive, questions_asked := 3,
              max_questions := 20 }, []) := by
  have h := (C8_sports_subquestion_guards sportsDemoState ["Y", "Y", "Y"] "Y"
    ["Y", "Y"] (by decide) (by decide)).2.2.2.2 (by decide)
    { remaining_people := sportsTennisFive, questions_asked := 2,
      max_questions := 20 } ["Y"] (by decide)
  have heq := (h.2.2 (by decide)).1
  rw [heq]
  decide

theorem bump_lkp_self (m : List (String × Nat)) (k : String) :
    lkp (bump m k) k = lkp m k + 1 := by
  induction m with
  | nil => simp [bump, lkp]
  | cons e rest ih =>
    obtain ⟨k', v⟩ := e
    by_cases hk : k' = k
    · subst hk
      simp [bump, lkp]
    · simp [bump, lkp, hk, ih]

theorem bump_lkp_ne (m : List (String × Nat)) (k k' : String) (hne : k' ≠ k) :
    lkp (bump m k) k' = lkp m k' := by
  induction m with
  | nil => simp [bump, lkp, Ne.symm hne]
  | cons e rest ih =>
    obtain ⟨k0, v⟩ := e
    by_cases hk : k0 = k
    · subst hk
      simp [bump, lkp, Ne.symm hne]
    · by_cases hk' : k0 = k'
      · subst hk'
        simp [bump, lkp, hk]
      · simp [bump, lkp, hk, hk', ih]

theorem foldl_bump_lkp (l : List String) :
    ∀ (m : List (String × Nat)) (k : String),
      lkp (l.foldl bump m) k = lkp m k + l.count k := by
  induction l with
  | nil => intro m k; simp
  | cons x xs ih =>
    intro m k
    by_cases hx : x = k
    · subst hx
      simp only [List.foldl_cons, ih, bump_lkp_self, List.count_cons_self]
      omega
    · simp only [List.foldl_cons, ih, bump_lkp_ne m x k (fun h => hx h.symm),
        List.count_cons_of_ne (fun h => hx h.symm)]

theorem tally_lkp (l : List String) (k : String) :
    lkp (tally l) k = l.count k := by
  have := foldl_bump_lkp l [] k
  simpa [tally, lkp] using this

theorem bump_keys (m : List (String × Nat)) (k : String) :
    (bump m k).map Prod.fst =
      if k ∈ m.map Prod.fst then m.map Prod.fst
      else m.map Prod.fst ++ [k] := by
  induction m with
  | nil => simp [bump]
  | cons e rest ih =>
    obtain ⟨k0, v⟩ := e
    by_cases hk : k0 = k
    · subst hk
      simp [bump]
    · simp only [bump, if_neg hk, List.map_cons, List.mem_cons]
      rw [ih]
      by_cases hmem : k ∈ rest.map Prod.fst
      · rw [if_pos hmem, if_pos (Or.inr hmem)]
      · rw [if_neg hmem, if_neg (by
          intro hor
          rcases hor with h1 | h2
          · exact hk h1.symm
          · exact hmem h2)]
        simp

theorem bump_keys_mem (m : List (String × Nat)) (k k' : String) :
    k' ∈ (bump m k).map Prod.fst ↔ k' ∈ m.map Prod.fst ∨ k' = k := by
  rw [bump_keys]
  by_cases hmem : k ∈ m.map Prod.fst
  · rw [if_pos hmem]
    constructor
    · exact Or.inl
    · intro hor
      rcases hor with h1 | h2
      · exact h1
      · exact h2 ▸ hmem
  · rw [if_neg hmem]
    simp

theorem foldl_bump_keys_mem (l : List String) :
    ∀ (m : List (String × Nat)) (k : String),
      k ∈ (l.foldl bump m).map Prod.fst ↔ k ∈ m.map Prod.fst ∨ k ∈ l := by
  induction l with
  | nil => intro m k; simp
  | cons x xs ih =>
    intro m k
    simp only [List.foldl_cons, ih, bump_keys_mem, List.mem_cons]
    tauto

theorem tally_keys_mem (l : List String) (k : String) :
    k ∈ (tally l).map Prod.fst ↔ k ∈ l := by
  have := foldl_bump_keys_mem l [] k
  simpa [tally] using this

theorem bump_keys_nodup (m : List (String × Nat)) (k : String)
    (h : (m.map Prod.fst).Nodup) : ((bump m k).map Prod.fst).Nodup := by
  rw [bump_keys]
  by_cases hmem : k ∈ m.map Prod.fst
  · rwa [if_pos hmem]
  · rw [if_neg hmem]
    simp [List.nodup_append, h, hmem]

theorem tally_keys_nodup (l : List String) :
    ((tally l).map Prod.fst).Nodup := by
  suffices hgen : ∀ (m : List (String × Nat)), (m.map Prod.fst).Nodup →
      ((l.foldl bump m).map Prod.fst).Nodup by
    exact hgen [] (by simp)
  induction l with
  | nil => intro m hm; exact hm
  | cons x xs ih =>
    intro m hm
    exact ih (bump m x) (bump_keys_nodup m x hm)

/-- Under distinct keys, membership of an entry pins its stored count. -/
theorem lkp_of_mem {m : List (String × Nat)} {k : String} {v : Nat}
    (hnd : (m.map Prod.fst).Nodup) (hmem : (k, v) ∈ m) : lkp m k = v := by
  induction m with
  | nil => simp at hmem
  | cons e rest ih =>
    obtain ⟨k0, v0⟩ := e
    rcases List.mem_cons.mp hmem with h1 | h2
    · rw [Prod.ext_iff] at h1
      obtain ⟨h1a, h1b⟩ := h1
      subst h1a
      subst h1b
      simp [lkp]
    · by_cases hk : k0 = k
      · subst hk
        exfalso
        have : k0 ∈ rest.map Prod.fst :=
          List.mem_map.mpr ⟨(k0, v), h2, rfl⟩
        exact (List.nodup_cons.mp (by simpa using hnd)).1 this
      · simp only [lkp, if_neg hk]
        exact ih (List.nodup_cons.mp (by simpa using hnd)).2 h2

/-- Every key present in the map carries its `lkp` count as an entry. -/
theorem mem_entry_of_mem_keys {m : List (String × Nat)} {k : String}
    (h : k ∈ m.map Prod.fst) : (k, lkp m k) ∈ m := by
  induction m with
  | nil => simp at h
  | cons e rest ih =>
    obtain ⟨k0, v0⟩ := e
    by_cases hk : k0 = k
    · subst hk
      simp [lkp]
    · have h' : k ∈ (k0, v0).1 :: rest.map Prod.fst := by
        rw [List.map_cons] at h
        exact h
      have h2 : k ∈ rest.map Prod.fst := by
        rcases List.mem_cons.mp h' with h1 | h2
        · exact absurd h1.symm hk
        · exact h2
      simp only [lkp, if_neg hk]
      exact List.mem_cons_of_mem _ (ih h2)

theorem pickMax_eq_none {m : List (String × Nat)} (h : pickMax m = none) :
    m = [] := by
  cases m with
  | nil => rfl
  | cons e0 rest =>
    exfalso
    cases hr : pickMax rest with
    | none => simp [pickMax, hr] at h
    | some e' =>
      by_cases hgt : e'.2 > e0.2 <;> simp [pickMax, hr, hgt] at h

theorem pickMax_mem {m : List (String × Nat)} {e : String × Nat}
    (h : pickMax m = some e) : e ∈ m := by
  induction m generalizing e with
  | nil => simp [pickMax] at h
  | cons e0 rest ih =>
    cases hr : pickMax rest with
    | none =>
      have hm : pickMax (e0 :: rest) = some e0 := by simp [pickMax, hr]
      rw [hm] at h
      obtain rfl : e0 = e := by simpa using h
      simp
    | some e' =>
      by_cases hgt : e'.2 > e0.2
      · have hm : pickMax (e0 :: rest) = some e' := by simp [pickMax, hr, hgt]
        rw [hm] at h
        obtain rfl : e' = e := by simpa using h
        exact List.mem_cons_of_mem _ (ih hr)
      · have hm : pickMax (e0 :: rest) = some e0 := by simp [pickMax, hr, hgt]
        rw [hm] at h
        obtain rfl : e0 = e := by simpa using h
        simp

theorem pickMax_le {m : List (String × Nat)} {e : String × Nat}
    (h : pickMax m = some e) : ∀ e' ∈ m, e'.2 ≤ e.2 := by
  induction m generalizing e with
  | nil => simp [pickMax] at h
  | cons e0 rest ih =>
    cases hr : pickMax rest with
    | none =>
      have hm : pickMax (e0 :: rest) = some e0 := by simp [pickMax, hr]
      rw [hm] at h
      obtain rfl : e0 = e := by simpa using h
      obtain rfl := pickMax_eq_none hr
      simp
    | some e' =>
      by_cases hgt : e'.2 > e0.2
      · have hm : pickMax (e0 :: rest) = some e' := by simp [pickMax, hr, hgt]
        rw [hm] at h
        obtain rfl : e' = e := by simpa using h
        intro x hx
        rcases List.mem_cons.mp hx with h1 | h2
        · subst h1; omega
        · exact ih hr x h2
      · have hm : pickMax (e0 :: rest) = some e0 := by simp [pickMax, hr, hgt]
        rw [hm] at h
        obtain rfl : e0 = e := by simpa using h
        intro x hx
        rcases List.mem_cons.mp hx with h1 | h2
        · subst h1; exact le_refl _
        · exact le_trans (ih hr x h2) (by omega)

/-- `pickMax` returns the first entry attaining the maximal count, exactly
like Python's `max(..., key=...)` scanning left to right. -/
theorem pickMax_first {m : List (String × Nat)} {e : String × Nat}
    (h : pickMax m = some e) :
    m.find? (fun x => x.2 == e.2) = some e := by
  induction m generalizing e with
  | nil => simp [pickMax] at h
  | cons e0 rest ih =>
    cases hr : pickMax rest with
    | none =>
      have hm : pickMax (e0 :: rest) = some e0 := by simp [pickMax, hr]
      rw [hm] at h
      obtain rfl : e0 = e := by simpa using h
      rw [List.find?_cons_of_pos _ (by simp)]
    | some e' =>
      by_cases hgt : e'.2 > e0.2
      · have hm : pickMax (e0 :: rest) = some e' := by simp [pickMax, hr, hgt]
        rw [hm] at h
        obtain rfl : e' = e := by simpa using h
        have hle := pickMax_le hr
        rw [List.find?_cons_of_neg _ (by simp; omega)]
        exact ih hr
      · have hm : pickMax (e0 :: rest) = some e0 := by simp [pickMax, hr, hgt]
        rw [hm] at h
        obtain rfl : e0 = e := by simpa using h
        rw [List.find?_cons_of_pos _ (by simp)]

/-- Whatever `find?` returns came before every other element satisfying
the predicate. -/
theorem find?_first {α : Type} {p : α → Bool} {m : List α} {a b : α}
    (h : m.find? p = some a) (hb : b ∈ m) (hp : p b = true) :
    b = a ∨ List.Sublist [a, b] m := by
  induction m with
  | nil => simp at hb
  | cons h0 t ih =>
    by_cases hph : p h0
    · rw [List.find?_cons_of_pos _ hph] at h
      obtain rfl : h0 = a := by simpa using h
      rcases List.mem_cons.mp hb with h1 | h2
      · exact Or.inl h1
      · refine Or.inr ?_
        exact List.Sublist.cons₂ _ (List.singleton_sublist.mpr h2)
    · rw [List.find?_cons_of_neg _ (by simpa using hph)] at h
      rcases List.mem_cons.mp hb with h1 | h2
      · subst h1; exact absurd hp (by simpa using hph)
      · rcases ih h h2 with h3 | h4
        · exact Or.inl h3
        · exact Or.inr (List.Sublist.cons h0 h4)

theorem firstIdx_append_of_mem {l l2 : List String} {k : String}
    (h : k ∈ l) : firstIdx (l ++ l2) k = firstIdx l k := by
  induction l with
  | nil => simp at h
  | cons x xs ih =>
    by_cases hx : x = k
    · simp [firstIdx, hx]
    · rcases List.mem_cons.mp h with h1 | h2
      · exact absurd h1.symm hx
      · simp [firstIdx, hx, ih h2]

theorem firstIdx_lt_length {l : List String} {k : String} (h : k ∈ l) :
    firstIdx l k < l.length := by
  induction l with
  | nil => simp at h
  | cons x xs ih =>
    by_cases hx : x = k
    · simp [firstIdx, hx]
    · rcases List.mem_cons.mp h with h1 | h2
      · exact absurd h1.symm hx
      · simp only [firstIdx, if_neg hx, List.length_cons]
        exact Nat.succ_lt_succ (ih h2)

theorem firstIdx_append_self {l : List String} {k : String} (h : k ∉ l) :
    firstIdx (l ++ [k]) k = l.length := by
  induction l with
  | nil => simp [firstIdx]
  | cons x xs ih =>
    have hx : x ≠ k := fun hc => h (hc ▸ List.mem_cons_self x xs)
    have h2 : k ∉ xs := fun hc => h (List.mem_cons_of_mem x hc)
    simp [firstIdx, hx, ih h2]

theorem tally_append_single (l : List String) (x : String) :
    tally (l ++ [x]) = bump (tally l) x := by
  simp [tally, List.foldl_append]

/-- Keys appear in the tally in first-encounter order: if `k₁` precedes
`k₂` among the tally's keys then its first occurrence in the underlying
list is strictly earlier. -/
theorem tally_keys_order (l : List String) :
    ∀ k1 k2 : String, k1 ≠ k2 →
      List.Sublist [k1, k2] ((tally l).map Prod.fst) →
      firstIdx l k1 < firstIdx l k2 := by
  induction l using List.reverseRecOn with
  | nil => intro k1 k2 hne hsub; simp [tally] at hsub
  | append_singleton l x ih =>
    intro k1 k2 hne hsub
    rw [tally_append_single, bump_keys] at hsub
    by_cases hx : x ∈ (tally l).map Prod.fst
    · rw [if_pos hx] at hsub
      have hk1 : k1 ∈ (tally l).map Prod.fst :=
        hsub.subset (by simp)
      have hk2 : k2 ∈ (tally l).map Prod.fst :=
        hsub.subset (by simp)
      rw [firstIdx_append_of_mem ((tally_keys_mem l k1).mp hk1),
        firstIdx_append_of_mem ((tally_keys_mem l k2).mp hk2)]
      exact ih k1 k2 hne hsub
    · rw [if_neg hx] at hsub
      have hxl : x ∉ l := fun hc => hx ((tally_keys_mem l x).mpr hc)
      rcases List.sublist_append_iff.mp hsub with ⟨l1, l2, heq, hsub1, hsub2⟩
      have hl2 : l2 = [] ∨ l2 = [x] := by
        cases l2 with
        | nil => exact Or.inl rfl
        | cons y t =>
          refine Or.inr ?_
          have := hsub2.length_le
          simp at this
          cases t with
          | nil =>
            have hy : y ∈ [x] := hsub2.subset (by simp)
            obtain rfl : y = x := by simpa using hy
            rfl
          | cons z t2 => simp at this
      rcases hl2 with rfl | rfl
      · rw [List.append_nil] at heq
        subst heq
        have hk1 : k1 ∈ (tally l).map Prod.fst := hsub1.subset (by simp)
        have hk2 : k2 ∈ (tally l).map Prod.fst := hsub1.subset (by simp)
        rw [firstIdx_append_of_mem ((tally_keys_mem l k1).mp hk1),
          firstIdx_append_of_mem ((tally_keys_mem l k2).mp hk2)]
        exact ih k1 k2 hne hsub1
      · have hl1 : l1 = [k1] ∧ x = k2 := by
          cases l1 with
          | nil => simp at heq
          | cons a t =>
            cases t with
            | nil =>
              simp at heq
              exact ⟨by rw [heq.1], heq.2.symm⟩
            | cons b t2 =>
              exfalso
              have : ([k1, k2] : List String).length = (a :: b :: t2 ++ [x]).length := by
                rw [heq]
              simp at this
        obtain ⟨rfl, rfl⟩ := hl1
        have hk1 : k1 ∈ (tally l).map Prod.fst := List.singleton_sublist.mp hsub1
        have hk1l : k1 ∈ l := (tally_keys_mem l k1).mp hk1
        rw [firstIdx_append_of_mem hk1l, firstIdx_append_self hxl]
        exact firstIdx_lt_length hk1l

/-- Full characterization of the most-common-nationality computation: the
returned nationality occurs in the list, the returned count is its
occurrence count, no nationality occurs more often, and any nationality
tying the count first occurs no earlier. -/
theorem most_common_spec {ps : List Person} {mc : String} {cnt : Nat}
    (h : most_common ps = some (mc, cnt)) :
    mc ∈ ps.map (fun p => p.nationality) ∧
    cnt = (ps.map (fun p => p.nationality)).count mc ∧
    (∀ n ∈ ps.map (fun p => p.nationality),
      (ps.map (fun p => p.nationality)).count n ≤ cnt) ∧
    (∀ n ∈ ps.map (fun p => p.nationality),
      (ps.map (fun p => p.nationality)).count n = cnt →
      firstIdx (ps.map (fun p => p.nationality)) mc ≤
        firstIdx (ps.map (fun p => p.nationality)) n) := by
  set nats := ps.map (fun p => p.nationality) with hnats
  have hpick : pickMax (tally nats) = some (mc, cnt) := h
  have hmem := pickMax_mem hpick
  have hkey : mc ∈ (tally nats).map Prod.fst :=
    List.mem_map.mpr ⟨(mc, cnt), hmem, rfl⟩
  have hmc_mem : mc ∈ nats := (tally_keys_mem nats mc).mp hkey
  have hcnt : cnt = nats.count mc := by
    have := lkp_of_mem (tally_keys_nodup nats) hmem
    rw [tally_lkp] at this
    exact this.symm
  refine ⟨hmc_mem, hcnt, ?_, ?_⟩
  · intro n hn
    have hnkey : n ∈ (tally nats).map Prod.fst := (tally_keys_mem nats n).mpr hn
    have hentry := mem_entry_of_mem_keys hnkey
    have hle := pickMax_le hpick _ hentry
    rwa [tally_lkp] at hle
  · intro n hn hcount
    by_cases hne : n = mc
    · subst hne; exact le_refl _
    · have hnkey : n ∈ (tally nats).map Prod.fst := (tally_keys_mem nats n).mpr hn
      have hentry := mem_entry_of_mem_keys hnkey
      rw [tally_lkp, hcount] at hentry
      have hfind := pickMax_first hpick
      rcases find?_first hfind hentry (by simp) with heq | hsub
      · exact absurd (congrArg Prod.fst heq) hne
      · have hsubk : List.Sublist [mc, n] ((tally nats).map Prod.fst) := by
          have := hsub.map Prod.fst
          simpa using this
        exact le_of_lt (tally_keys_order nats mc n (fun hx => hne hx.symm) hsubk)

/-- C4: the nationality question computes the most common nationality of
the current remaining list fresh (count occurrences, take the maximum
count, ties broken by the first-encountered nationality in iteration
order), asks only when that count exceeds 1 (skipping, with nothing
consumed, when the most common nationality occurs once), and maps Y to an
exact, case-sensitive equality filter and N to its complement. -/
theorem C4_nationality_question (s : GameState) (inp : List String) :
    (∀ mc cnt, most_common s.remaining_people = some (mc, cnt) →
      mc ∈ s.remaining_people.map (fun p => p.nationality) ∧
      cnt = (s.remaining_people.map (fun p => p.nationality)).count mc ∧
      (∀ n ∈ s.remaining_people.map (fun p => p.nationality),
        (s.remaining_people.map (fun p => p.nationality)).count n ≤ cnt) ∧
      (∀ n ∈ s.remaining_people.map (fun p => p.nationality),
        (s.remaining_people.map (fun p => p.nationality)).count n = cnt →
        firstIdx (s.remaining_people.map (fun p => p.nationality)) mc ≤
          firstIdx (s.remaining_people.map (fun p => p.nationality)) n)) ∧
    (∀ mc cnt, 2 < s.remaining_people.length →
      most_common s.remaining_people = some (mc, cnt) → cnt ≤ 1 →
      ask_nationality_question s inp = some (s, inp)) ∧
    (∀ mc cnt a rest, 2 < s.remaining_people.length →
      most_common s.remaining_people = some (mc, cnt) → 1 < cnt →
      getValid ["Y", "N"] inp = some (a, rest) →
      (a = "Y" → ask_nationality_question s inp = some ({ s with
          remaining_people := filterCandidates s.remaining_people
            (fun p => p.nationality = mc)
          questions_asked := s.questions_asked + 1 }, rest)) ∧
      (a ≠ "Y" → ask_nationality_question s inp = some ({ s with
          remaining_people := filterCandidates s.remaining_people
            (fun p => p.nationality ≠ mc)
          questions_asked := s.questions_asked + 1 }, rest))) := by
  refine ⟨fun mc cnt h => most_common_spec h, ?_, ?_⟩
  · intro mc cnt hlen hmc hcnt
    unfold ask_nationality_question
    rw [if_neg (by omega), hmc]
    simp only []
    rw [if_neg (by omega)]
  · intro mc cnt a rest hlen hmc hcnt hg
    unfold ask_nationality_question
    rw [if_neg (by omega), hmc]
    simp only []
    rw [if_pos hcnt, hg]
    simp only []
    constructor
    · intro ha
      rw [if_pos ha]
    · intro ha
      rw [if_neg ha]

/-- Concrete instantiation of `C4`: with plurality nationality India
(count 2 > 1) a Y answer keeps exactly the two Indians and counts one
question. -/
theorem C4_nationality_question_witness :
    ask_nationality_question natDemoState ["Y"] = some (natDemoAfter, []) := by
  have h := ((C4_nationality_question natDemoState ["Y"]).2.2 "India" 2 "Y" []
    (by decide) (by decide) (by decide) (by decide)).1 rfl
  rw [h]
  decide

/-- C3, counterexample: the claim says only the nationality step is skipped
below size 3 while the age step is skipped below size 2, i.e. at exactly 2
candidates the over-40 question should still be asked.  In the code
`ask_age_question` returns immediately whenever `len(remaining) <= 2`: with
exactly 2 candidates and a pending valid answer, nothing is consumed, no
filter runs, and the counter stays put. -/
theorem C3_age_at_two_counterexample :
    twoLeftState.remaining_people.length = 2 ∧
    ask_age_question twoLeftState ["Y"] = some (twoLeftState, ["Y"]) ∧
    play_round twoLeftState ["Y"] =
      some (RoundResult.continued twoLeftState ["Y"]) := by
  refine ⟨rfl, by decide, by decide⟩

/-- C3 (amended): the dispatcher picks the question tier by size — gender
above 20, entertainment at 11–20 (with its sport/film sub-dispatch on the
filtered state), nationality at 6–10, the over-40 age question at 5 or
fewer, mapping Y to `age > 40` and N to `age <= 40` — and BOTH the
nationality and the age steps are skipped below size 3 (at 2 or fewer
candidates they return without asking). -/
theorem C3_question_selection (s : GameState) (inp : List String) :
    (20 < s.remaining_people.length →
      select_question s inp = ask_gender_question s inp) ∧
    (10 < s.remaining_people.length → s.remaining_people.length ≤ 20 →
      (ask_entertainment_question s inp = none → select_question s inp = none) ∧
      (∀ s1 br rest, ask_entertainment_question s inp = some (s1, br, rest) →
        select_question s inp =
          match br with
          | .entertainment =>
            if s1.remaining_people.any (fun p => p.plays_sport) then
              ask_sports_question s1 rest
            else ask_film_vs_music_question s1 rest
          | .other => some (s1, rest))) ∧
    (5 < s.remaining_people.length → s.remaining_people.length ≤ 10 →
      select_question s inp = ask_nationality_question s inp) ∧
    (s.remaining_people.length ≤ 5 →
      select_question s inp = ask_age_question s inp) ∧
    (s.remaining_people.length ≤ 2 →
      ask_nationality_question s inp = some (s, inp) ∧
      ask_age_question s inp = some (s, inp)) ∧
    (2 < s.remaining_people.length → ∀ a rest,
      getValid ["Y", "N"] inp = some (a, rest) →
      (a = "Y" → ask_age_question s inp = some ({ s with
          remaining_people := filterCandidates s.remaining_people
            (fun p => p.age > 40)
          questions_asked := s.questions_asked + 1 }, rest)) ∧
      (a ≠ "Y" → ask_age_question s inp = some ({ s with
          remaining_people := filterCandidates s.remaining_people
            (fun p => p.age ≤ 40)
          questions_asked := s.questions_asked + 1 }, rest))) := by
  refine ⟨?_, ?_, ?_, ?_, ?_, ?_⟩
  · intro hlen
    unfold select_question
    rw [if_pos hlen]
  · intro hlo hhi
    constructor
    · intro hent
      unfold select_question
      rw [if_neg (by omega), if_pos (by omega), hent]
    · intro s1 br rest hent
      unfold select_question
      rw [if_neg (by omega), if_pos (by omega), hent]
  · intro hlo hhi
    unfold select_question
    rw [if_neg (by omega), if_neg (by omega), if_pos (by omega)]
  · intro hle
    unfold select_question
    rw [if_neg (by omega), if_neg (by omega), if_neg (by omega)]
  · intro hle
    constructor
    · unfold ask_nationality_question
      rw [if_pos (by omega)]
    · unfold ask_age_question
      rw [if_pos (by omega)]
  · intro hlen a rest hg
    unfold ask_age_question
    rw [if_neg (by omega), hg]
    simp only []
    constructor
    · intro ha
      rw [if_pos ha]
    · intro ha
      rw [if_neg ha]

/-- Concrete instantiation of `C3`: at size 5 the dispatcher asks the age
question, and a Y answer keeps exactly the over-40 candidates. -/
theorem C3_question_selection_witness :
    select_question ageDemoState ["Y"] = some (ageDemoAfter, []) := by
  have hsel := (C3_question_selection ageDemoState ["Y"]).2.2.2.1 (by decide)
  have hage := (((C3_question_selection ageDemoState ["Y"]).2.2.2.2.2
    (by decide)) "Y" [] (by decide)).1 rfl
  rw [hsel, hage]
  decide

/-- C5: every Person the game constructs from the backing catalog satisfies
the invariant (gender in {M, F}, industry in the closed set, age ≥ 0), and
its gender and industry are already in the upper-case normal form the
constructor (`__post_init__`) established — re-normalizing is the
identity.  (After construction no code path assigns to a Person field, so
the records stay as built; the embedding is immutable by construction.) -/
theorem C5_person_invariant :
    loadedPeople.length = 50 ∧
    loadedPeople.all specValidPerson = true ∧
    loadedPeople.all (fun p =>
      strUpper p.gender = p.gender && strUpper p.industry = p.industry) = true := by
  refine ⟨rfl, by decide, by decide⟩

/-- Concrete instantiation of `C6` on a two-person pool. -/
theorem C6_filter_subsequence_witness :
    List.Sublist (filterCandidates [demoActor, demoSinger]
      (fun p => p.gender = "F")) [demoActor, demoSinger] :=
  (C6_filter_subsequence [demoActor, demoSinger] (fun p => p.gender = "F")).1

/-- Concrete instantiation of `C9`: a FILM person is not simultaneously in
sports and music. -/
theorem C9_entertainment_partition_witness :
    ¬(demoActor.plays_sport = true ∧ demoActor.is_in_music = true) :=
  (C9_entertainment_partition demoActor).2.1

end GuessWho
